import Mathlib

/-!
Verification of the EmailAutomationBGV pipeline.

Shallow embedding of the repository's status-extraction pipeline
(main.py, process_monitored_emails lines 70-109), the retry decorator
(zoho_crm.py, retry_on_failure lines 7-37), the CRM synchronizer
(zoho_crm.py, ZohoCRMService), the assistant invoker (ai_processor.py,
ai_assistant) and the follow-up scan (main.py, process_followup lines
207-245).  Python strings are embedded as List Char; stateful and
network-dependent code is embedded as pure functions of an explicit
oracle describing the remote behavior; Python exceptions are embedded
as Option/Except or an explicit exception component of the result.
-/

/-- Characters of the literal separator used on line 79 of main.py
(the word STATUS, a colon and a space). -/
def sepStatus : List Char := "STATUS: ".data

/-- Characters of the literal line marker used on line 76 of main.py
(the word STATUS and a colon, without the trailing space). -/
def sepStatusColon : List Char := "STATUS:".data

/-- Remainder of a list after the first occurrence of the separator.
Python s.split(sep) has at least two parts exactly when this is some,
and the part of index 1 begins at the returned remainder.  Returns
none when the separator does not occur (modelling the IndexError that
indexing part 1 of a one-part split raises). -/
def afterFirstOcc (sep : List Char) : List Char → Option (List Char)
  | [] => if sep.isEmpty then some [] else none
  | c :: rest =>
    if sep.isPrefixOf (c :: rest) then some (List.drop sep.length (c :: rest))
    else afterFirstOcc sep rest

/-- Prefix of a list before the first occurrence of the separator (the
whole list when the separator does not occur).  Mirrors how each part
of Python s.split(sep) extends to the next non-overlapping occurrence. -/
def takeUntilOcc (sep : List Char) : List Char → List Char
  | [] => []
  | c :: rest =>
    if sep.isPrefixOf (c :: rest) then [] else c :: takeUntilOcc sep rest

/-- Boolean test: the separator occurs somewhere in the list. -/
def hasOccB (sep : List Char) : List Char → Bool
  | [] => sep.isEmpty
  | c :: rest => sep.isPrefixOf (c :: rest) || hasOccB sep rest

/-- Characters removed by Python str.strip with no argument (ASCII
whitespace: space, tab, newline, carriage return, vertical tab, form
feed). -/
def pySpace (c : Char) : Bool :=
  c = ' ' || c = '\t' || c = '\n' || c = '\r' || c = Char.ofNat 11 || c = Char.ofNat 12

/-- Embeds Python str.strip(): drop whitespace from both ends. -/
def pyStrip (l : List Char) : List Char :=
  ((l.dropWhile pySpace).reverse.dropWhile pySpace).reverse

/-- Embeds lines 76-78 of main.py: split the assistant reply on
newlines, drop every line that starts with the seven characters of
sepStatusColon, and join the remaining lines with newlines. -/
def filtered_body (t : List Char) : List Char :=
  List.intercalate ['\n'] ((t.splitOn '\n').filter fun l => !(sepStatusColon.isPrefixOf l))

/-- Embeds line 79 of main.py: the part of the reply between the first
and second occurrence of sepStatus (part 1 of the Python split), cut at
its first newline, then stripped.  none models the IndexError raised
when sepStatus does not occur in the reply. -/
def status_line_token (t : List Char) : Option (List Char) :=
  (afterFirstOcc sepStatus t).map fun r =>
    pyStrip (takeUntilOcc ['\n'] (takeUntilOcc sepStatus r))

/-- Embeds lines 80-81 of main.py: the only token rewritten is the
exact uppercase FOLLOWUP, which becomes Follow Up; every other token is
kept unchanged. -/
def map_status_token (tok : List Char) : List Char :=
  if tok = "FOLLOWUP".data then "Follow Up".data else tok

/-- Status value the pipeline hands to the CRM for a reply, none when
line 79 of main.py raises IndexError. -/
def resolved_status (t : List Char) : Option (List Char) :=
  (status_line_token t).map map_status_token

/-- Uppercase image of a token, used only by the spec-side table. -/
def upperAscii (l : List Char) : List Char := l.map Char.toUpper

/-- Modelled from the spec: the fixed token table of its section 3
(FOLLOWUP to Follow Up, INTERESSIERT to Interessiert, UNINTERESSIERT to
Uninteressiert, any unrecognized token to a fixed fallback value, the
received default of section 4.1), matched case-insensitively after
trimming.  The repository contains no such table; this definition
follows the wording of the spec and exists only for comparison. -/
def spec_status_table (tok : List Char) : List Char :=
  if upperAscii tok = "FOLLOWUP".data then "Follow Up".data
  else if upperAscii tok = "INTERESSIERT".data then "Interessiert".data
  else if upperAscii tok = "UNINTERESSIERT".data then "Uninteressiert".data
  else "received".data

/-- Reply text with exactly one status line whose token is a valid
table key written exactly as the table writes it. -/
def demoReplyOne : List Char := "Hallo\nSTATUS: INTERESSIERT\nDanke".data

/-- Reply text with no status line and no status marker at all. -/
def demoReplyZero : List Char := "Hallo\nDanke".data

/-- Line list used by the witness of the zero-status-line claim. -/
def demoLinesZero : List (List Char) := ["Hallo zusammen".data, "Viele Gruesse".data]

/-- Outcome of one call of a Python operation wrapped by the retry
decorator: a value, a raised requests.exceptions.RequestException, or a
raised exception of any other class. -/
inductive PyOutcome (A : Type) where
  | ok (a : A)
  | reqErr (e : Nat)
  | otherErr (e : Nat)
deriving DecidableEq

/-- Result of one wrapped call: the returned value or the propagated
exception. -/
inductive CallResult (A : Type) where
  | value (a : A)
  | raised (e : Nat)
deriving DecidableEq

/-- Observable behavior of one wrapped call: the returned value or the
propagated exception, the sequence of sleep durations in order, and the
number of times the wrapped function was called. -/
structure RunTrace (A : Type) where
  result : CallResult A
  sleeps : List Nat
  calls : Nat
deriving DecidableEq

/-- Embeds the final unprotected call on line 35 of zoho_crm.py, reached
only when the while loop is not entered: any exception propagates. -/
def finalCall {A : Type} (o : PyOutcome A) : RunTrace A :=
  match o with
  | .ok a => ⟨.value a, [], 1⟩
  | .reqErr e => ⟨.raised e, [], 1⟩
  | .otherErr e => ⟨.raised e, [], 1⟩

/-- Embeds the while loop of retry_on_failure (zoho_crm.py lines 18-35),
recursing on the number of loop iterations still allowed (max_retries
minus retry_count).  attempt is the zero-based index of the next call of
the wrapped function, cd the value of current_delay.  A RequestException
on the last allowed iteration re-raises without sleeping; any other
exception class propagates at once; otherwise the loop sleeps cd,
multiplies the delay by the backoff factor and retries. -/
def retryLoop {A : Type} (op : Nat → PyOutcome A) (backoff : Nat) :
    Nat → Nat → Nat → RunTrace A
  | 0, attempt, _ => finalCall (op attempt)
  | r + 1, attempt, cd =>
    match op attempt with
    | .ok a => ⟨.value a, [], 1⟩
    | .otherErr e => ⟨.raised e, [], 1⟩
    | .reqErr e =>
      match r with
      | 0 => ⟨.raised e, [], 1⟩
      | _ + 1 =>
        let t := retryLoop op backoff r (attempt + 1) (cd * backoff)
        ⟨t.result, cd :: t.sleeps, t.calls + 1⟩

/-- Embeds retry_on_failure(max_retries, retry_delay, backoff_factor)
(zoho_crm.py lines 7-37) applied to an operation whose outcome on its
i-th call is op i. -/
def retry_on_failure {A : Type} (op : Nat → PyOutcome A)
    (max_retries retry_delay backoff_factor : Nat) : RunTrace A :=
  retryLoop op backoff_factor max_retries 0 retry_delay

/-- Operation that fails with a RequestException twice and then
succeeds; used by the retry-policy witness. -/
def opTwoFailures : Nat → PyOutcome Nat :=
  fun i => if i < 2 then .reqErr 7 else .ok 42

/-- Operation that fails with a RequestException on every call; used by
the retry-policy witness. -/
def opAlwaysFails : Nat → PyOutcome Nat := fun _ => .reqErr 9

/-- Operation that raises a non-request exception on every call; used by
the non-request-propagation witness. -/
def opOtherError : Nat → PyOutcome Nat := fun _ => .otherErr 5

/-- Embeds one run of the body of update_entry_status (zoho_crm.py lines
102-126) against a server whose response status depends only on the
bearer token the request carries: raise_for_status turns any status in
400..599 into an HTTPError, a requests.exceptions.RequestException,
carried here as reqErr with the status code; otherwise the parsed
response body is returned, abstracted as the status code. -/
def update_entry_status_once (server : Nat → Nat) (tok : Nat) : PyOutcome Nat :=
  if 400 ≤ server tok ∧ server tok ≤ 599 then .reqErr (server tok) else .ok (server tok)

/-- Embeds a full call of the decorated update_entry_status: each of the
up-to-three attempts re-runs the body, which reads self.access_token;
nothing in the body or in the wrapper ever assigns the token, so every
attempt carries the same tok0. -/
def update_entry_status_run (server : Nat → Nat) (tok0 : Nat) : RunTrace Nat :=
  retry_on_failure (fun _ => update_entry_status_once server tok0) 3 2 2

/-- Embeds _refresh_token_if_needed (zoho_crm.py lines 69-77): given the
response status, the current token and the token a fresh
_get_access_token call would produce, returns the new value of
self.access_token and the boolean the method returns.  No method of the
repository ever calls this helper. -/
def refresh_token_if_needed (status cur fresh : Nat) : Nat × Bool :=
  if status = 401 then (fresh, true) else (cur, false)

/-- Modelled from the spec: an authorization failure (status 401)
triggers a one-time token refresh and a single retry of the same call,
and only afterwards the generic retry policy applies.  The repository
contains no call path with this behavior (the helper above is dead
code); this definition follows the wording of the spec and exists only
for comparison.  Second component counts token refreshes. -/
def update_entry_status_specModel (server : Nat → Nat) (tok0 fresh : Nat) :
    CallResult Nat × Nat :=
  match update_entry_status_once server tok0 with
  | .ok a => (.value a, 0)
  | .otherErr e => (.raised e, 0)
  | .reqErr e =>
    if e = 401 then
      match update_entry_status_once server fresh with
      | .ok a => (.value a, 1)
      | _ =>
        ((retry_on_failure (fun _ => update_entry_status_once server fresh) 3 2 2).result, 1)
    else
      ((retry_on_failure (fun _ => update_entry_status_once server tok0) 3 2 2).result, 0)

/-- Server for which token 7 is the only valid one: any other bearer
token gets status 401, token 7 gets 200. -/
def demoServer (tok : Nat) : Nat := if tok = 7 then 200 else 401

/-- One record of the CRM search response: the opaque id and the JSON
value of the Followup_Count field (none: key absent; some none: JSON
null; some (some n): a number). -/
structure ZRecord where
  rid : List Char
  followupField : Option (Option Int)
deriving DecidableEq

/-- CRM search response: HTTP status and the data array. -/
structure SearchResp where
  status : Nat
  data : List ZRecord
deriving DecidableEq

/-- Input to one run of fetch_zoho_record_by_email: either the requests
call raises a transport-level RequestException, or a response arrives. -/
inductive FetchInput where
  | transportErr
  | resp (r : SearchResp)
deriving DecidableEq

/-- Embeds the Python expression data of index 0 .get with default 0
applied to the Followup_Count field of a record. -/
def pyGetFollowup (rec : ZRecord) : Option Int :=
  match rec.followupField with
  | none => some 0
  | some v => v

/-- Embeds fetch_zoho_record_by_email (zoho_crm.py lines 180-209): any
RequestException (transport failure, or an HTTP status in 400..599 via
raise_for_status) is caught and becomes None; an empty data array
becomes None; otherwise the id and Followup_Count of the first record
of the array are returned. -/
def fetch_zoho_record_by_email (inp : FetchInput) : Option (List Char × Option Int) :=
  match inp with
  | .transportErr => none
  | .resp r =>
    if 400 ≤ r.status ∧ r.status ≤ 599 then none
    else
      match r.data with
      | [] => none
      | rec :: _ => some (rec.rid, pyGetFollowup rec)

/-- Search response with two matching records; used to refute the
multiple-match clause of the lookup claim. -/
def demoTwoRecords : FetchInput :=
  .resp ⟨200, [⟨"111".data, some (some 2)⟩, ⟨"222".data, some (some 5)⟩]⟩

/-- Message of the assistant thread: its role string and the text values
of its content array. -/
structure AssistantMsg where
  role : List Char
  contentVals : List (List Char)
deriving DecidableEq

/-- Joint behavior of the thread, message, run, poll and list calls
inside the try block of ai_assistant: either one of them raises with
text msg (str of the exception), or polling terminates and the message
list is msgs. -/
inductive AssistantRun where
  | raisesWith (msg : List Char)
  | completesWith (msgs : List AssistantMsg)
deriving DecidableEq

/-- Embeds ai_assistant (ai_processor.py lines 17-71): every exception
of the try block is caught and turned into the text Error-colon-space
followed by str of the exception; a completed run returns the first
content value of the first assistant-role message (an empty content
array raises IndexError inside the try block, so it too becomes an
Error-prefixed string); with no assistant-role message a fixed notice
is returned. -/
def ai_assistant (run : AssistantRun) : List Char :=
  match run with
  | .raisesWith m => "Error: ".data ++ m
  | .completesWith msgs =>
    match msgs.find? (fun m => m.role == "assistant".data) with
    | some m =>
      match m.contentVals with
      | v :: _ => v
      | [] => "Error: ".data ++ "list index out of range".data
    | none => "No response from assistant".data

/-- Exceptions that the embedded pipeline fragments can raise. -/
inductive PyExc where
  | typeErr
  | valueErr
  | indexErr
deriving DecidableEq

/-- Inbound email as produced by the mailbox monitor. -/
structure InboundEmail where
  sender : List Char
  subject : List Char
  bodyTxt : List Char
deriving DecidableEq

/-- Externally visible actions of the per-email pipeline. -/
inductive MailAction where
  | sendStatusEmail (recipient : List Char) (bodyTxt : List Char)
  | updateEntryStatus (rid : List Char) (status : List Char)
deriving DecidableEq

/-- Embeds line 84 of main.py: the text between the first opening and
the next closing angle bracket when both brackets occur somewhere in
the sender header, else the whole header. -/
def extract_sender_email (sender : List Char) : List Char :=
  if ('<') ∈ sender ∧ ('>') ∈ sender then
    takeUntilOcc ['>'] (takeUntilOcc ['<'] ((afterFirstOcc ['<'] sender).getD []))
  else sender

/-- Embeds the per-email body of process_monitored_emails (main.py lines
70-109): compute the assistant reply, filter it, extract and map the
status (lines 76-81; an absent STATUS marker raises IndexError there,
caught by the per-email handler on line 107, so nothing at all is
sent), send the filtered reply, look up the record by sender address and
patch its status.  lookup is the value fetch_zoho_record_by_email
returns.  Result: the externally visible actions in order, plus the
exception the per-email handler caught, if any. -/
def process_monitored_email_item (run : AssistantRun)
    (lookup : Option (List Char × Option Int)) (mail : InboundEmail) :
    List MailAction × Option PyExc :=
  let aiResponse := ai_assistant run
  let bodyOut := filtered_body aiResponse
  match resolved_status aiResponse with
  | none => ([], some .indexErr)
  | some st =>
    let senderEmail := extract_sender_email mail.sender
    match lookup with
    | none => ([MailAction.sendStatusEmail senderEmail bodyOut], none)
    | some (rid, _) =>
      ([MailAction.sendStatusEmail senderEmail bodyOut,
        MailAction.updateEntryStatus rid st], none)

/-- Inbound email used by the error-surrogate counterexample. -/
def demoMail : InboundEmail :=
  ⟨"Max Muster <max@example.com>".data, "Re: Anfrage".data, "Hallo".data⟩

/-- Datetime as parsed by strptime with the format of main.py line 217. -/
structure PyDateTime where
  year : Nat
  month : Nat
  day : Nat
  hour : Nat
  minute : Nat
  second : Nat
  tzOffsetMinutes : Int
deriving DecidableEq

/-- Numeric value of an ASCII digit. -/
def digitVal (c : Char) : Option Nat :=
  if c.isDigit then some (c.toNat - 48) else none

/-- Parses exactly two digits. -/
def parse2 : List Char → Option (Nat × List Char)
  | a :: b :: rest => do
    let x ← digitVal a
    let y ← digitVal b
    pure (10 * x + y, rest)
  | _ => none

/-- Parses exactly four digits. -/
def parse4 : List Char → Option (Nat × List Char)
  | a :: b :: c :: d :: rest => do
    let x ← digitVal a
    let y ← digitVal b
    let z ← digitVal c
    let w ← digitVal d
    pure (1000 * x + 100 * y + 10 * z + w, rest)
  | _ => none

/-- Consumes one expected literal character. -/
def expectChar (c : Char) : List Char → Option (List Char)
  | x :: rest => if x = c then some rest else none
  | [] => none

/-- Parses the timezone directive: a sign followed by two-digit hours
and two-digit minutes, with an optional colon, or the letter Z. -/
def parseTz : List Char → Option (Int × List Char)
  | 'Z' :: rest => some (0, rest)
  | '+' :: rest => parseTzHm 1 rest
  | '-' :: rest => parseTzHm (-1) rest
  | _ => none
where
  parseTzHm (sign : Int) (l : List Char) : Option (Int × List Char) := do
    let (h, r1) ← parse2 l
    let r2 := match r1 with
      | ':' :: r => r
      | r => r
    let (m, r3) ← parse2 r2
    if h ≤ 23 ∧ m ≤ 59 then pure (sign * (60 * h + m), r3) else none

/-- Embeds datetime.strptime with the format string of main.py line 217
(year, month, day, the letter T, hours, minutes, seconds and a timezone
offset): none models the ValueError Python raises on a mismatch.  Field
ranges are validated as strptime validates its directives. -/
def strptimeYmdHMSz (s : List Char) : Option PyDateTime := do
  let (y, r1) ← parse4 s
  let r2 ← expectChar '-' r1
  let (mo, r3) ← parse2 r2
  let r4 ← expectChar '-' r3
  let (d, r5) ← parse2 r4
  let r6 ← expectChar 'T' r5
  let (h, r7) ← parse2 r6
  let r8 ← expectChar ':' r7
  let (mi, r9) ← parse2 r8
  let r10 ← expectChar ':' r9
  let (sec, r11) ← parse2 r10
  let (off, r12) ← parseTz r11
  if 1 ≤ mo ∧ mo ≤ 12 ∧ 1 ≤ d ∧ d ≤ 31 ∧ h ≤ 23 ∧ mi ≤ 59 ∧ sec ≤ 61 ∧ r12 = [] then
    pure ⟨y, mo, d, h, mi, sec, off⟩
  else none

/-- Dynamically typed values flowing through the follow-up scan. -/
inductive PyVal where
  | vStr (s : List Char)
  | vDt (d : PyDateTime)
  | vTd (seconds : Int)
deriving DecidableEq

/-- Second count of a datetime on an idealized uniform calendar.  Only
comparisons of two datetimes would consume it, and no input of the
follow-up scan ever reaches a defined subtraction, so the calendar
details are immaterial. -/
def dtToSeconds (d : PyDateTime) : Int :=
  ((((d.year * 12 + d.month) * 31 + d.day) * 24 + d.hour) * 60 + d.minute) * 60
    + d.second - d.tzOffsetMinutes * 60

/-- Embeds Python binary subtraction for the value kinds reachable in
process_followup: datetime minus datetime gives a timedelta; any
combination involving a string raises TypeError, exactly as Python
rejects the unsupported operand types. -/
def pySub (a b : PyVal) : Except PyExc PyVal :=
  match a, b with
  | .vDt x, .vDt y => .ok (.vTd (dtToSeconds x - dtToSeconds y))
  | _, _ => .error .typeErr

/-- Embeds the Python comparison of a value with timedelta(days=n): only
a timedelta compares; anything else raises TypeError. -/
def pyGtTdDays (v : PyVal) (n : Int) : Except PyExc Bool :=
  match v with
  | .vTd s => .ok (decide (n * 86400 < s))
  | _ => .error .typeErr

/-- CRM entry as the follow-up scan reads it from the search response
(main.py lines 212-215): the Email, mailSent, Modified_Time and
Followup_Count fields.  The first three are raw JSON strings; the
counter is none when absent or null. -/
structure FollowupEntry where
  email : List Char
  mailSent : List Char
  modifiedTime : List Char
  followupCount : Option Int
deriving DecidableEq

/-- Externally visible actions of the follow-up scan for one entry. -/
inductive CrmAction where
  | updateStatus (rid : List Char) (status : List Char)
  | sendFollowupEmail (email : List Char)
  | updateMailsent (rid : List Char)
deriving DecidableEq

/-- Embeds the per-entry body of process_followup (main.py lines
211-239).  lookup is the value fetch_zoho_record_by_email returns for
the entry's email.  Result: the actions performed for this entry, plus
the exception that aborts the whole route handler, if one is raised.
Notes kept from the source: Modified_Time is used as the raw string on
line 219, so the subtraction from the parsed mailSent datetime raises
TypeError on every entry with a nonempty mailSent; a None lookup is
unpacked on line 223 and raises TypeError; a None Followup_Count is
compared with 3 on line 230 and raises TypeError; line 236 passes the
keyword follow_up_count to update_mailsent_status, whose signature has
no such parameter, raising TypeError after the follow-up email was
already sent. -/
def process_followup_entry (lookup : Option (List Char × Option Int))
    (e : FollowupEntry) : List CrmAction × Option PyExc :=
  if e.mailSent = [] then ([], none)
  else
    match strptimeYmdHMSz e.mailSent with
    | none => ([], some .valueErr)
    | some msdt =>
      match pySub (.vStr e.modifiedTime) (.vDt msdt) with
      | .error ex => ([], some ex)
      | .ok td =>
        match lookup with
        | none => ([], some .typeErr)
        | some (rid, _hist) =>
          match pyGtTdDays td 5 with
          | .error ex => ([], some ex)
          | .ok gt5 =>
            if gt5 then
              match e.followupCount with
              | none => ([], some .typeErr)
              | some fc =>
                ((if 3 < fc then [CrmAction.updateStatus rid ("Uninteressiert".data)] else [])
                   ++ [CrmAction.sendFollowupEmail e.email], some .typeErr)
            else ([], none)

/-- Entry of the follow-up scan scenario: prior send six days before the
last modification, follow-up counter at four. -/
def demoFollowupEntry : FollowupEntry :=
  ⟨"probe@example.com".data, "2025-01-01T09:00:00+0000".data,
   "2025-01-07T09:00:00+0000".data, some 4⟩

/-- JSON values the patch payloads carry. -/
inductive JVal where
  | jStr (s : List Char)
  | jInt (n : Int)
deriving DecidableEq

/-- PATCH request the mutating CRM calls build: the target url and the
fields of the single record object inside the data array. -/
structure PatchRequest where
  url : List Char
  payloadFields : List (List Char × JVal)
deriving DecidableEq

/-- Base url of the Probenehmer module. -/
def probenehmerUrl : List Char := "https://www.zohoapis.eu/crm/v2/Probenehmer/".data

/-- Embeds the request update_entry_status builds (zoho_crm.py lines
106-122): a PATCH naming the record id and make_com_Status. -/
def update_entry_status_req (entry_id status : List Char) : PatchRequest :=
  ⟨probenehmerUrl ++ entry_id,
   [(("id").data, .jStr entry_id), (("make_com_Status").data, .jStr status)]⟩

/-- Embeds the request update_status builds (zoho_crm.py lines 135-151):
a PATCH naming the record id and make_com_Status. -/
def update_status_req (entry_id status : List Char) : PatchRequest :=
  ⟨probenehmerUrl ++ entry_id,
   [(("id").data, .jStr entry_id), (("make_com_Status").data, .jStr status)]⟩

/-- Embeds the request update_mailsent_status builds (zoho_crm.py lines
217-234): a PATCH naming the record id and mailSent. -/
def update_mailsent_status_req (entry_id mail_sent : List Char) : PatchRequest :=
  ⟨probenehmerUrl ++ entry_id,
   [(("id").data, .jStr entry_id), (("mailSent").data, .jStr mail_sent)]⟩

/-- Embeds the request update_followup builds (zoho_crm.py lines
246-262): a PATCH naming the record id and Followup_Count. -/
def update_followup_req (entry_id : List Char) (follow_up_count : Int) : PatchRequest :=
  ⟨probenehmerUrl ++ entry_id,
   [(("id").data, .jStr entry_id), (("Followup_Count").data, .jInt follow_up_count)]⟩

/-- Response with status 204 and no matching record; used by the lookup
witness. -/
def demoEmptyResp : SearchResp := ⟨204, []⟩

/-- Response with HTTP error status 404 that nevertheless carries a
record; used by the lookup witness for the error-status clause. -/
def demoErrResp : SearchResp := ⟨404, [⟨"333".data, some (some 1)⟩]⟩

/-- Lines before the status line in the status-extraction witness: a
greeting and a line that starts with the seven-character STATUS-colon
prefix without the trailing space (removed by the filter, invisible to
the token extraction). -/
def demoPre : List (List Char) := ["Guten Tag".data, "STATUS:ABC".data]

/-- Lines after the status line in the status-extraction witness. -/
def demoPost : List (List Char) := ["Mit freundlichen Gruessen".data]

/-- Token of the status line in the status-extraction witness. -/
def demoTok : List Char := "FOLLOWUP".data

/-- Stepping over one separator-free character block: whether sep is a
prefix of the block followed by a character outside sep only depends on
the block. -/
theorem isPrefixOf_stop (x : Char) :
    ∀ (sep l r : List Char), x ∉ sep →
      sep.isPrefixOf (l ++ x :: r) = sep.isPrefixOf l
  | [], l, r, _ => by simp [List.isPrefixOf]
  | s :: ss, [], r, h => by
    have hs : (s == x) = false := by
      simp only [beq_eq_false_iff_ne, ne_eq]
      intro he
      exact h (he ▸ List.mem_cons_self s ss)
    show ((s == x) && ss.isPrefixOf r) = ((s :: ss).isPrefixOf [])
    rw [hs]
    rfl
  | s :: ss, c :: l2, r, h => by
    show ((s == c) && ss.isPrefixOf (l2 ++ x :: r)) = ((s == c) && ss.isPrefixOf l2)
    rw [isPrefixOf_stop x ss l2 r fun hm => h (List.mem_cons_of_mem s hm)]

/-- A nonempty separator is not a prefix of the empty list. -/
theorem isPrefixOf_nil_of_ne (sep : List Char) (hsep : sep ≠ []) :
    sep.isPrefixOf ([] : List Char) = false := by
  obtain ⟨s, ss, rfl⟩ := List.exists_cons_of_ne_nil hsep
  rfl

/-- Occurrence search skips a block free of occurrences followed by a
character outside the separator. -/
theorem hasOccB_skip (sep : List Char) (x : Char) (hx : x ∉ sep) (hsep : sep ≠ []) :
    ∀ (l r : List Char), hasOccB sep l = false →
      hasOccB sep (l ++ x :: r) = hasOccB sep r
  | [], r, _ => by
    show (sep.isPrefixOf (x :: r) || hasOccB sep r) = hasOccB sep r
    have h1 : sep.isPrefixOf (x :: r) = sep.isPrefixOf [] :=
      isPrefixOf_stop x sep [] r hx
    rw [h1, isPrefixOf_nil_of_ne sep hsep]
    rfl
  | c :: l2, r, hl => by
    have hl2 : (sep.isPrefixOf (c :: l2) || hasOccB sep l2) = false := hl
    rw [Bool.or_eq_false_iff] at hl2
    show (sep.isPrefixOf (c :: (l2 ++ x :: r)) || hasOccB sep (l2 ++ x :: r)) = hasOccB sep r
    have hp : sep.isPrefixOf (c :: (l2 ++ x :: r)) = false := by
      have h := isPrefixOf_stop x sep (c :: l2) r hx
      rw [List.cons_append] at h
      rw [h]
      exact hl2.1
    rw [hp, hasOccB_skip sep x hx hsep l2 r hl2.2]
    rfl

/-- First-occurrence search skips a block free of occurrences followed
by a character outside the separator. -/
theorem afterFirstOcc_skip (sep : List Char) (x : Char) (hx : x ∉ sep) (hsep : sep ≠ []) :
    ∀ (l r : List Char), hasOccB sep l = false →
      afterFirstOcc sep (l ++ x :: r) = afterFirstOcc sep r
  | [], r, _ => by
    show afterFirstOcc sep (x :: r) = afterFirstOcc sep r
    have h1 : sep.isPrefixOf (x :: r) = false := by
      have h0 : sep.isPrefixOf ([] ++ x :: r) = sep.isPrefixOf [] :=
        isPrefixOf_stop x sep [] r hx
      rw [List.nil_append] at h0
      rw [h0]
      exact isPrefixOf_nil_of_ne sep hsep
    simp [afterFirstOcc, h1]
  | c :: l2, r, hl => by
    have hl2 : (sep.isPrefixOf (c :: l2) || hasOccB sep l2) = false := hl
    rw [Bool.or_eq_false_iff] at hl2
    show afterFirstOcc sep (c :: (l2 ++ x :: r)) = afterFirstOcc sep r
    have hp : sep.isPrefixOf (c :: (l2 ++ x :: r)) = false := by
      have h := isPrefixOf_stop x sep (c :: l2) r hx
      rw [List.cons_append] at h
      rw [h]
      exact hl2.1
    simp only [afterFirstOcc, hp]
    simp only [Bool.false_eq_true, if_false]
    exact afterFirstOcc_skip sep x hx hsep l2 r hl2.2

/-- Prefix extraction walks through a block free of occurrences followed
by a character outside the separator. -/
theorem takeUntilOcc_skip (sep : List Char) (x : Char) (hx : x ∉ sep) (hsep : sep ≠ []) :
    ∀ (l r : List Char), hasOccB sep l = false →
      takeUntilOcc sep (l ++ x :: r) = l ++ x :: takeUntilOcc sep r
  | [], r, _ => by
    show takeUntilOcc sep (x :: r) = x :: takeUntilOcc sep r
    have h1 : sep.isPrefixOf (x :: r) = false := by
      have h0 : sep.isPrefixOf ([] ++ x :: r) = sep.isPrefixOf [] :=
        isPrefixOf_stop x sep [] r hx
      rw [List.nil_append] at h0
      rw [h0]
      exact isPrefixOf_nil_of_ne sep hsep
    simp [takeUntilOcc, h1]
  | c :: l2, r, hl => by
    have hl2 : (sep.isPrefixOf (c :: l2) || hasOccB sep l2) = false := hl
    rw [Bool.or_eq_false_iff] at hl2
    show takeUntilOcc sep (c :: (l2 ++ x :: r)) = c :: (l2 ++ x :: takeUntilOcc sep r)
    have hp : sep.isPrefixOf (c :: (l2 ++ x :: r)) = false := by
      have h := isPrefixOf_stop x sep (c :: l2) r hx
      rw [List.cons_append] at h
      rw [h]
      exact hl2.1
    simp only [takeUntilOcc, hp]
    simp only [Bool.false_eq_true, if_false]
    rw [takeUntilOcc_skip sep x hx hsep l2 r hl2.2]

/-- The first-occurrence search succeeds exactly when an occurrence
exists. -/
theorem afterFirstOcc_isSome (sep : List Char) :
    ∀ l, (afterFirstOcc sep l).isSome = hasOccB sep l
  | [] => by
    by_cases h : sep.isEmpty <;> simp [afterFirstOcc, hasOccB, h]
  | c :: rest => by
    by_cases h : sep.isPrefixOf (c :: rest) = true
    · simp [afterFirstOcc, hasOccB, h]
    · rw [Bool.not_eq_true] at h
      simp [afterFirstOcc, hasOccB, h, afterFirstOcc_isSome sep rest]

/-- The first occurrence of a separator placed at the very front is
found there. -/
theorem afterFirstOcc_self (sep x : List Char) (hsep : sep ≠ []) :
    afterFirstOcc sep (sep ++ x) = some x := by
  obtain ⟨s, ss, rfl⟩ := List.exists_cons_of_ne_nil hsep
  have hpre : (s :: ss).isPrefixOf ((s :: ss) ++ x) = true := by
    rw [List.isPrefixOf_iff_prefix]
    exact ⟨x, rfl⟩
  have hstep : afterFirstOcc (s :: ss) ((s :: ss) ++ x) =
      if (s :: ss).isPrefixOf ((s :: ss) ++ x) = true
      then some (List.drop (s :: ss).length ((s :: ss) ++ x))
      else afterFirstOcc (s :: ss) (ss ++ x) := rfl
  rw [hstep, if_pos hpre, List.drop_left]

/-- On an occurrence-free list the prefix extraction returns the whole
list. -/
theorem takeUntilOcc_of_noOcc (sep : List Char) :
    ∀ l, hasOccB sep l = false → takeUntilOcc sep l = l
  | [], _ => rfl
  | c :: rest, h => by
    have h2 : (sep.isPrefixOf (c :: rest) || hasOccB sep rest) = false := h
    rw [Bool.or_eq_false_iff] at h2
    simp only [takeUntilOcc, h2.1]
    simp only [Bool.false_eq_true, if_false]
    rw [takeUntilOcc_of_noOcc sep rest h2.2]

/-- A single-character separator occurs exactly when the character is a
member. -/
theorem hasOccB_singleChar (x : Char) :
    ∀ l, hasOccB [x] l = false ↔ x ∉ l
  | [] => by
    show ([x].isEmpty = false) ↔ x ∉ ([] : List Char)
    simp [List.isEmpty]
  | c :: rest => by
    have hpre : ([x].isPrefixOf (c :: rest)) = (x == c) := by
      show ((x == c) && List.isPrefixOf [] rest) = (x == c)
      simp [List.isPrefixOf]
    have hrec := hasOccB_singleChar x rest
    show (([x].isPrefixOf (c :: rest)) || hasOccB [x] rest) = false ↔ x ∉ c :: rest
    rw [hpre, Bool.or_eq_false_iff, List.mem_cons, not_or]
    constructor
    · rintro ⟨h1, h2⟩
      exact ⟨by simpa [beq_eq_false_iff_ne] using h1, hrec.mp h2⟩
    · rintro ⟨h1, h2⟩
      exact ⟨by simpa [beq_eq_false_iff_ne] using h1, hrec.mpr h2⟩

/-- Cutting at a single-character separator placed right after a block
that avoids it returns the block. -/
theorem takeUntilOcc_singleChar (x : Char) :
    ∀ (tok z : List Char), x ∉ tok →
      takeUntilOcc [x] (tok ++ x :: z) = tok
  | [], z, _ => by
    have hpre : ([x].isPrefixOf (x :: z)) = true := by
      show ((x == x) && List.isPrefixOf [] z) = true
      simp [List.isPrefixOf]
    show takeUntilOcc [x] (x :: z) = []
    simp [takeUntilOcc, hpre]
  | c :: tok2, z, h => by
    have hxc : (x == c) = false := by
      simp only [beq_eq_false_iff_ne, ne_eq]
      intro he
      exact h (he ▸ List.mem_cons_self c tok2)
    have hpre : ([x].isPrefixOf (c :: (tok2 ++ x :: z))) = false := by
      show ((x == c) && List.isPrefixOf [] (tok2 ++ x :: z)) = false
      rw [hxc]
      rfl
    show takeUntilOcc [x] (c :: (tok2 ++ x :: z)) = c :: tok2
    simp only [takeUntilOcc, hpre]
    simp only [Bool.false_eq_true, if_false]
    rw [takeUntilOcc_singleChar x tok2 z fun hm => h (List.mem_cons_of_mem c hm)]

/-- Joining a nonempty tail: the separator goes between head and tail. -/
theorem intercalate_cons_of_ne (x : Char) (l : List Char) (ls : List (List Char))
    (h : ls ≠ []) :
    List.intercalate [x] (l :: ls) = l ++ x :: List.intercalate [x] ls := by
  obtain ⟨m, ms, rfl⟩ := List.exists_cons_of_ne_nil h
  simp [List.intercalate, List.intersperse_cons_cons]

/-- Joining a single line is that line. -/
theorem intercalate_single (x : Char) (l : List Char) :
    List.intercalate [x] [l] = l := by
  simp [List.intercalate]

/-- A separator avoiding the joining character occurs in a joined list
only if it occurs inside one of the lines. -/
theorem hasOccB_intercalate (sep : List Char) (x : Char) (hx : x ∉ sep) (hsep : sep ≠ []) :
    ∀ ls : List (List Char), (∀ l ∈ ls, hasOccB sep l = false) →
      hasOccB sep (List.intercalate [x] ls) = false
  | [], _ => by
    show hasOccB sep [] = false
    show sep.isEmpty = false
    obtain ⟨s, ss, rfl⟩ := List.exists_cons_of_ne_nil hsep
    rfl
  | [l], h => by
    rw [intercalate_single]
    exact h l (List.mem_singleton_self l)
  | l :: m :: ms, h => by
    rw [intercalate_cons_of_ne x l (m :: ms) (List.cons_ne_nil m ms)]
    rw [hasOccB_skip sep x hx hsep l _ (h l (List.mem_cons_self l (m :: ms)))]
    exact hasOccB_intercalate sep x hx hsep (m :: ms)
      fun a ha => h a (List.mem_cons_of_mem l ha)

/-- The first-occurrence search on a joined list skips every leading
line free of occurrences. -/
theorem afterFirstOcc_intercalate_skip (sep : List Char) (x : Char)
    (hx : x ∉ sep) (hsep : sep ≠ []) :
    ∀ (pre : List (List Char)) (sl : List Char) (post : List (List Char)),
      (∀ l ∈ pre, hasOccB sep l = false) →
      afterFirstOcc sep (List.intercalate [x] (pre ++ sl :: post)) =
        afterFirstOcc sep (List.intercalate [x] (sl :: post))
  | [], sl, post, _ => rfl
  | p :: pre2, sl, post, h => by
    rw [show (p :: pre2) ++ sl :: post = p :: (pre2 ++ sl :: post) from rfl]
    rw [intercalate_cons_of_ne x p _ (by simp)]
    rw [afterFirstOcc_skip sep x hx hsep p _ (h p (List.mem_cons_self p pre2))]
    exact afterFirstOcc_intercalate_skip sep x hx hsep pre2 sl post
      fun a ha => h a (List.mem_cons_of_mem p ha)

/-- Token extracted by line 79 of main.py from a reply whose lines are
pre, then a line made of the STATUS marker and tok, then post, provided
no earlier occurrence of the marker exists. -/
theorem status_token_intercalate (pre post : List (List Char)) (tok : List Char)
    (hpre : ∀ l ∈ pre, hasOccB sepStatus l = false)
    (htok : hasOccB sepStatus tok = false)
    (htoknl : ('\n') ∉ tok) :
    status_line_token (List.intercalate ['\n'] (pre ++ (sepStatus ++ tok) :: post)) =
      some (pyStrip tok) := by
  have hnl : ('\n') ∉ sepStatus := by decide
  have hne : sepStatus ≠ [] := by decide
  unfold status_line_token
  rw [afterFirstOcc_intercalate_skip sepStatus '\n' hnl hne pre _ post hpre]
  cases post with
  | nil =>
    rw [intercalate_single]
    rw [afterFirstOcc_self sepStatus tok hne]
    simp only [Option.map_some']
    rw [takeUntilOcc_of_noOcc sepStatus tok htok]
    rw [takeUntilOcc_of_noOcc ['\n'] tok ((hasOccB_singleChar '\n' tok).mpr htoknl)]
  | cons q qs =>
    rw [intercalate_cons_of_ne '\n' _ (q :: qs) (List.cons_ne_nil q qs)]
    rw [List.append_assoc]
    rw [afterFirstOcc_self sepStatus _ hne]
    simp only [Option.map_some']
    rw [takeUntilOcc_skip sepStatus '\n' hnl hne tok _ htok]
    rw [takeUntilOcc_singleChar '\n' tok _ htoknl]

/-- Line 79 of main.py raises (returns none) on any reply none of whose
lines contains the STATUS marker. -/
theorem status_token_none (ls : List (List Char))
    (h : ∀ l ∈ ls, hasOccB sepStatus l = false) :
    status_line_token (List.intercalate ['\n'] ls) = none := by
  have hocc := hasOccB_intercalate sepStatus '\n' (by decide) (by decide) ls h
  have h2 : afterFirstOcc sepStatus (List.intercalate ['\n'] ls) = none := by
    have hs := afterFirstOcc_isSome sepStatus (List.intercalate ['\n'] ls)
    rw [hocc] at hs
    exact Option.not_isSome_iff_eq_none.mp (by simp [hs])
  unfold status_line_token
  rw [h2]
  rfl

/-- Lines 76-78 of main.py keep a reply unchanged when no line starts
with the STATUS line marker. -/
theorem filtered_body_keep_all (ls : List (List Char)) (hne : ls ≠ [])
    (hnl : ∀ l ∈ ls, ('\n') ∉ l)
    (hkeep : ∀ l ∈ ls, sepStatusColon.isPrefixOf l = false) :
    filtered_body (List.intercalate ['\n'] ls) = List.intercalate ['\n'] ls := by
  unfold filtered_body
  rw [List.splitOn_intercalate ls '\n' hnl hne]
  rw [List.filter_eq_self.mpr fun l hl => by rw [hkeep l hl]; rfl]

/-- Lines 76-78 of main.py drop the full status line, and the remaining
lines pass through the line filter: each is kept exactly when it does
not start with the seven characters of the STATUS line marker. -/
theorem filtered_body_drop_line (pre post : List (List Char)) (tok : List Char)
    (hnl : ∀ l ∈ pre ++ post, ('\n') ∉ l) (htoknl : ('\n') ∉ tok) :
    filtered_body (List.intercalate ['\n'] (pre ++ (sepStatus ++ tok) :: post)) =
      List.intercalate ['\n']
        ((pre ++ post).filter fun l => !(sepStatusColon.isPrefixOf l)) := by
  unfold filtered_body
  have hall : ∀ l ∈ pre ++ (sepStatus ++ tok) :: post, ('\n') ∉ l := by
    intro l hl
    rcases List.mem_append.mp hl with h | h
    · exact hnl l (List.mem_append.mpr (Or.inl h))
    · rcases List.mem_cons.mp h with rfl | h2
      · intro hmem
        rcases List.mem_append.mp hmem with h3 | h3
        · exact absurd h3 (by decide)
        · exact htoknl h3
      · exact hnl l (List.mem_append.mpr (Or.inr h2))
  rw [List.splitOn_intercalate _ '\n' hall (by simp)]
  have hsl : (sepStatusColon.isPrefixOf (sepStatus ++ tok)) = true := by
    rw [List.isPrefixOf_iff_prefix]
    refine ⟨(' ') :: tok, ?_⟩
    rw [show sepStatus = sepStatusColon ++ [' '] from by decide]
    rw [List.append_assoc]
    rfl
  refine congrArg (List.intercalate ['\n']) ?_
  rw [List.filter_append, List.filter_append]
  refine congrArg (List.filter (fun l => !(sepStatusColon.isPrefixOf l)) pre ++ ·) ?_
  rw [List.filter_cons]
  simp [hsl]

/-- Shifting the delay sequence by one backoff step. -/
theorem delays_shift (cd bf k : Nat) :
    cd :: (List.range k).map (fun i => cd * bf * bf ^ i) =
      (List.range (k + 1)).map (fun i => cd * bf ^ i) := by
  rw [List.range_succ_eq_map]
  simp only [List.map_cons, List.map_map, pow_zero, mul_one]
  refine congrArg (cd :: ·) ?_
  refine List.map_congr_left fun i _ => ?_
  show cd * bf * bf ^ i = cd * bf ^ (i + 1)
  rw [pow_succ]
  ring

/-- The delay sequence is strictly increasing for a positive base delay
and a backoff factor above one. -/
theorem delays_pairwise (d bf k : Nat) (hd : 0 < d) (hbf : 1 < bf) :
    ((List.range k).map fun i => d * bf ^ i).Pairwise (· < ·) :=
  List.Pairwise.map _
    (fun _ _ hab => mul_lt_mul_of_pos_left (Nat.pow_lt_pow_right hbf hab) hd)
    (List.pairwise_lt_range k)

/-- One unfolding step of the retry loop on a request failure with at
least two loop iterations still allowed: sleep the current delay and
retry with the backed-off delay. -/
theorem retryLoop_step_req {A : Type} (op : Nat → PyOutcome A) (bf r attempt cd e : Nat)
    (h : op attempt = PyOutcome.reqErr e) :
    retryLoop op bf (r + 1 + 1) attempt cd =
      ⟨(retryLoop op bf (r + 1) (attempt + 1) (cd * bf)).result,
       cd :: (retryLoop op bf (r + 1) (attempt + 1) (cd * bf)).sleeps,
       (retryLoop op bf (r + 1) (attempt + 1) (cd * bf)).calls + 1⟩ := by
  simp [retryLoop, h]

/-- Run of the retry loop when the operation fails with request errors
on the first k calls and succeeds on call k, k below the remaining
iteration budget: the success value is returned after k sleeps with
exponential backoff, and k plus one calls were made. -/
theorem retryLoop_ok {A : Type} (op : Nat → PyOutcome A) (bf : Nat) (k : Nat) :
    ∀ (r attempt cd : Nat) (a : A), k < r →
      (∀ i, i < k → ∃ e, op (attempt + i) = PyOutcome.reqErr e) →
      op (attempt + k) = PyOutcome.ok a →
      retryLoop op bf r attempt cd =
        ⟨.value a, (List.range k).map fun i => cd * bf ^ i, k + 1⟩ := by
  induction k with
  | zero =>
    intro r attempt cd a hk hfail hsucc
    obtain ⟨r2, rfl⟩ : ∃ r2, r = r2 + 1 := ⟨r - 1, by omega⟩
    rw [Nat.add_zero] at hsucc
    simp [retryLoop, hsucc]
  | succ k ih =>
    intro r attempt cd a hk hfail hsucc
    obtain ⟨e0, he0⟩ := hfail 0 (by omega)
    rw [Nat.add_zero] at he0
    obtain ⟨r2, rfl⟩ : ∃ r2, r = r2 + 1 := ⟨r - 1, by omega⟩
    have hr2 : k < r2 := by omega
    obtain ⟨r3, rfl⟩ : ∃ r3, r2 = r3 + 1 := ⟨r2 - 1, by omega⟩
    have hfail2 : ∀ i, i < k → ∃ e, op (attempt + 1 + i) = PyOutcome.reqErr e := by
      intro i hi
      obtain ⟨e, he⟩ := hfail (i + 1) (by omega)
      exact ⟨e, by rw [show attempt + 1 + i = attempt + (i + 1) from by omega]; exact he⟩
    have hsucc2 : op (attempt + 1 + k) = PyOutcome.ok a := by
      rw [show attempt + 1 + k = attempt + (k + 1) from by omega]
      exact hsucc
    have hrec := ih (r3 + 1) (attempt + 1) (cd * bf) a hr2 hfail2 hsucc2
    rw [retryLoop_step_req op bf r3 attempt cd e0 he0, hrec]
    simp [delays_shift]

/-- Run of the retry loop when the operation fails with request errors
on every allowed call: the error of the last call propagates after one
sleep fewer than there were calls. -/
theorem retryLoop_allfail {A : Type} (op : Nat → PyOutcome A) (bf : Nat) (r : Nat) :
    ∀ (attempt cd elast : Nat), 0 < r →
      (∀ i, i < r - 1 → ∃ e, op (attempt + i) = PyOutcome.reqErr e) →
      op (attempt + (r - 1)) = PyOutcome.reqErr elast →
      retryLoop op bf r attempt cd =
        ⟨.raised elast, (List.range (r - 1)).map fun i => cd * bf ^ i, r⟩ := by
  induction r with
  | zero =>
    intro attempt cd elast hr
    omega
  | succ r2 ih =>
    intro attempt cd elast _ hfail hlast
    cases r2 with
    | zero =>
      rw [show 0 + 1 - 1 = 0 from rfl, Nat.add_zero] at hlast
      simp [retryLoop, hlast]
    | succ r3 =>
      obtain ⟨e0, he0⟩ := hfail 0 (by omega)
      rw [Nat.add_zero] at he0
      have hfail2 : ∀ i, i < r3 + 1 - 1 → ∃ e, op (attempt + 1 + i) = PyOutcome.reqErr e := by
        intro i hi
        obtain ⟨e, he⟩ := hfail (i + 1) (by omega)
        exact ⟨e, by rw [show attempt + 1 + i = attempt + (i + 1) from by omega]; exact he⟩
      have hlast2 : op (attempt + 1 + (r3 + 1 - 1)) = PyOutcome.reqErr elast := by
        rw [show attempt + 1 + (r3 + 1 - 1) = attempt + (r3 + 1 + 1 - 1) from by omega]
        exact hlast
      have hrec := ih (attempt + 1) (cd * bf) elast (by omega) hfail2 hlast2
      rw [retryLoop_step_req op bf r3 attempt cd e0 he0, hrec]
      rw [show r3 + 1 + 1 - 1 = (r3 + 1 - 1) + 1 from by omega]
      simp [delays_shift]

/-- C1 counterexample: on a reply with exactly one status line whose
token is INTERESSIERT, the extraction of process_monitored_emails
removes the line and yields the token verbatim as the status, which is
not the value the fixed table of the spec assigns to that token
(Interessiert, matched case-insensitively).  The claimed table lookup
therefore does not describe the code. -/
theorem claim_C1_counterexample :
    filtered_body demoReplyOne = "Hallo\nDanke".data
    ∧ resolved_status demoReplyOne = some ("INTERESSIERT".data)
    ∧ spec_status_table ("INTERESSIERT".data) = "Interessiert".data
    ∧ resolved_status demoReplyOne ≠ some (spec_status_table ("INTERESSIERT".data)) := by
  refine ⟨by decide, by decide, by decide, by decide⟩

/-- C1 amended: for every reply whose lines are pre, then a status line
made of the literal STATUS-colon-space marker followed by a token, then
post, where the marker occurs nowhere earlier (neither inside a line of
pre nor inside the token), the extraction step of
process_monitored_emails produces a cleaned reply in which the status
line is absent and any other line starting with the seven-character
untrimmed prefix STATUS-colon is absent as well, all remaining lines
kept in original order, and resolves the status to the trimmed token
mapped case-sensitively: exactly the uppercase FOLLOWUP becomes Follow
Up and every other token is passed through unchanged; there is no
case-insensitive table lookup. -/
theorem claim_C1_amended (pre post : List (List Char)) (tok : List Char)
    (hnl : ∀ l ∈ pre ++ post, ('\n') ∉ l) (htoknl : ('\n') ∉ tok)
    (hpre : ∀ l ∈ pre, hasOccB sepStatus l = false)
    (htok : hasOccB sepStatus tok = false) :
    filtered_body (List.intercalate ['\n'] (pre ++ (sepStatus ++ tok) :: post)) =
      List.intercalate ['\n']
        ((pre ++ post).filter fun l => !(sepStatusColon.isPrefixOf l))
    ∧ resolved_status (List.intercalate ['\n'] (pre ++ (sepStatus ++ tok) :: post)) =
      some (map_status_token (pyStrip tok)) := by
  refine ⟨filtered_body_drop_line pre post tok hnl htoknl, ?_⟩
  unfold resolved_status
  rw [status_token_intercalate pre post tok hpre htok htoknl]
  rfl

/-- C1 witness: the amended statement evaluated on a concrete reply
with a FOLLOWUP status line preceded by a greeting and a bare
STATUS-colon-prefixed line (filtered out) and followed by a closing
line. -/
theorem claim_C1_witness :
    filtered_body (List.intercalate ['\n'] (demoPre ++ (sepStatus ++ demoTok) :: demoPost)) =
      List.intercalate ['\n']
        ((demoPre ++ demoPost).filter fun l => !(sepStatusColon.isPrefixOf l))
    ∧ resolved_status (List.intercalate ['\n'] (demoPre ++ (sepStatus ++ demoTok) :: demoPost)) =
      some ("Follow Up".data) := by
  have h := claim_C1_amended demoPre demoPost demoTok (by decide) (by decide)
    (by decide) (by decide)
  exact ⟨h.1, by rw [h.2]; decide⟩

/-- C2 counterexample: on a reply with zero status lines the cleaned
output does equal the original text, but the status extraction raises
IndexError (none) instead of resolving to the received default; the
default claimed by the spec does not exist in the code. -/
theorem claim_C2_counterexample :
    filtered_body demoReplyZero = demoReplyZero
    ∧ resolved_status demoReplyZero = none
    ∧ resolved_status demoReplyZero ≠ some ("received".data) := by
  refine ⟨by decide, by decide, by decide⟩

/-- C2 amended: for every reply none of whose lines starts with
STATUS-colon or contains the STATUS-colon-space marker, the filtering
step of process_monitored_emails returns the original text unchanged,
and the status extraction of line 79 raises IndexError (returns none),
so no status is resolved and the per-email handler aborts the message;
there is no received default. -/
theorem claim_C2_amended (ls : List (List Char)) (hne : ls ≠ [])
    (hnl : ∀ l ∈ ls, ('\n') ∉ l)
    (hkeep : ∀ l ∈ ls, sepStatusColon.isPrefixOf l = false)
    (hnoocc : ∀ l ∈ ls, hasOccB sepStatus l = false) :
    filtered_body (List.intercalate ['\n'] ls) = List.intercalate ['\n'] ls
    ∧ resolved_status (List.intercalate ['\n'] ls) = none := by
  refine ⟨filtered_body_keep_all ls hne hnl hkeep, ?_⟩
  unfold resolved_status
  rw [status_token_none ls hnoocc]
  rfl

/-- C2 witness: the amended statement evaluated on a concrete
two-line reply without any status marker. -/
theorem claim_C2_witness :
    filtered_body (List.intercalate ['\n'] demoLinesZero) =
      List.intercalate ['\n'] demoLinesZero
    ∧ resolved_status (List.intercalate ['\n'] demoLinesZero) = none :=
  claim_C2_amended demoLinesZero (by decide) (by decide) (by decide) (by decide)

/-- C3 counterexample: two distinct unrecognized tokens resolve to two
distinct statuses (each to itself), so there is no single fallback
status that every unrecognized token resolves to. -/
theorem claim_C3_counterexample :
    map_status_token ("AAA".data) = ("AAA").data
    ∧ map_status_token ("BBB".data) = ("BBB").data
    ∧ ("AAA").data ≠ ("FOLLOWUP").data
    ∧ ("BBB").data ≠ ("FOLLOWUP").data
    ∧ map_status_token ("AAA".data) ≠ map_status_token ("BBB".data) := by
  refine ⟨by decide, by decide, by decide, by decide, by decide⟩

/-- C3 amended: the token mapping of process_monitored_emails is total
and never fails, but its fallback is the identity: every token other
than the exact uppercase FOLLOWUP is passed through unchanged as the
CRM status, and every token maps either to Follow Up or to itself. -/
theorem claim_C3_amended (tok : List Char) :
    (tok ≠ ("FOLLOWUP").data → map_status_token tok = tok)
    ∧ (map_status_token tok = ("Follow Up").data ∨ map_status_token tok = tok) := by
  constructor
  · intro h
    simp [map_status_token, h]
  · by_cases h : tok = ("FOLLOWUP").data <;> simp [map_status_token, h]

/-- C3 witness: the amended statement evaluated on a concrete
unrecognized token. -/
theorem claim_C3_witness : map_status_token ("XYZ".data) = ("XYZ").data :=
  (claim_C3_amended (("XYZ").data)).1 (by decide)

/-- C4: the retry wrapper with parameters max_retries, retry_delay and
backoff_factor returns the success value of an operation that fails
with request errors k times, k below max_retries, and then succeeds,
after sleeping the delays retry_delay times backoff_factor to the power
of the attempt index, strictly increasing whenever the delay is
positive and the factor above one; an operation failing max_retries
times propagates its last error after exactly max_retries minus one
sleeps, with no sleep after the last failure. -/
theorem claim_C4_retry_policy (op : Nat → PyOutcome Nat) (maxR d bf : Nat) :
    (∀ k a, k < maxR → (∀ i, i < k → ∃ e, op i = PyOutcome.reqErr e) →
      op k = PyOutcome.ok a →
      retry_on_failure op maxR d bf =
        ⟨.value a, (List.range k).map fun i => d * bf ^ i, k + 1⟩
      ∧ (0 < d → 1 < bf → (retry_on_failure op maxR d bf).sleeps.Pairwise (· < ·)))
    ∧ (∀ elast, 0 < maxR → (∀ i, i < maxR - 1 → ∃ e, op i = PyOutcome.reqErr e) →
        op (maxR - 1) = PyOutcome.reqErr elast →
        retry_on_failure op maxR d bf =
          ⟨.raised elast, (List.range (maxR - 1)).map fun i => d * bf ^ i, maxR⟩) := by
  constructor
  · intro k a hk hfail hsucc
    have h := retryLoop_ok op bf k maxR 0 d a hk (by simpa using hfail) (by simpa using hsucc)
    refine ⟨h, fun hd hbf => ?_⟩
    rw [show retry_on_failure op maxR d bf = retryLoop op bf maxR 0 d from rfl, h]
    exact delays_pairwise d bf k hd hbf
  · intro elast hpos hfail hlast
    exact retryLoop_allfail op bf maxR 0 d elast hpos (by simpa using hfail)
      (by simpa using hlast)

/-- C4 witness: the retry policy evaluated on an operation failing twice
then succeeding, and on an operation failing on all three calls, with
the decorator parameters of the repository. -/
theorem claim_C4_witness :
    retry_on_failure opTwoFailures 3 2 2 =
      ⟨.value 42, (List.range 2).map fun i => 2 * 2 ^ i, 3⟩
    ∧ (retry_on_failure opTwoFailures 3 2 2).sleeps.Pairwise (· < ·)
    ∧ retry_on_failure opAlwaysFails 3 2 2 =
      ⟨.raised 9, (List.range 2).map fun i => 2 * 2 ^ i, 3⟩ := by
  have h1 := (claim_C4_retry_policy opTwoFailures 3 2 2).1 2 42 (by omega)
    (fun i hi => ⟨7, by interval_cases i <;> rfl⟩) (by rfl)
  have h2 := (claim_C4_retry_policy opAlwaysFails 3 2 2).2 9 (by omega)
    (fun i _ => ⟨9, rfl⟩) rfl
  exact ⟨h1.1, h1.2 (by omega) (by omega), h2⟩

/-- C5 counterexample: against a server that rejects the current token
with 401 and would accept the refreshed token, the repository's
update_entry_status raises 401 after the generic retry policy, never
refreshing, while the behavior the spec describes refreshes once and
returns the success value.  The claimed refresh-and-retry does not
exist in the code. -/
theorem claim_C5_counterexample :
    (update_entry_status_run demoServer 5).result = .raised 401
    ∧ (update_entry_status_run demoServer 5).sleeps = [2, 4]
    ∧ (update_entry_status_specModel demoServer 5 7).1 = .value 200
    ∧ (update_entry_status_specModel demoServer 5 7).2 = 1
    ∧ (update_entry_status_run demoServer 5).result ≠
        (update_entry_status_specModel demoServer 5 7).1 := by
  refine ⟨by decide, by decide, by decide, by decide, by decide⟩

/-- C5 amended: a CRM update whose response status is an HTTP error for
the current token is treated like any other request failure: the
generic retry policy re-runs the call three times with the same
unrefreshed token, sleeps 2 and 4 seconds, and propagates the error;
no token refresh and no dedicated single retry happen on 401 because
_refresh_token_if_needed is never invoked. -/
theorem claim_C5_amended (server : Nat → Nat) (tok0 : Nat)
    (h4 : 400 ≤ server tok0) (h5 : server tok0 ≤ 599) :
    update_entry_status_run server tok0 = ⟨.raised (server tok0), [2, 4], 3⟩ := by
  have honce : update_entry_status_once server tok0 = .reqErr (server tok0) := by
    simp [update_entry_status_once, h4, h5]
  have h := retryLoop_allfail (fun _ => update_entry_status_once server tok0) 2 3 0 2
    (server tok0) (by omega) (fun i _ => ⟨server tok0, honce⟩) honce
  rw [show update_entry_status_run server tok0 =
      retryLoop (fun _ => update_entry_status_once server tok0) 2 3 0 2 from rfl, h]
  refine congrArg (RunTrace.mk (CallResult.raised (server tok0)) · 3) ?_
  decide

/-- C5 witness: the amended statement evaluated against the concrete
server that answers 401 to the stale token. -/
theorem claim_C5_witness :
    update_entry_status_run demoServer 5 = ⟨.raised 401, [2, 4], 3⟩ :=
  claim_C5_amended demoServer 5 (by decide) (by decide)

/-- C6 counterexample: a search response with two matching records does
not produce a not-found result; fetch_zoho_record_by_email returns the
id and counter of the first record. -/
theorem claim_C6_counterexample :
    fetch_zoho_record_by_email demoTwoRecords = some ("111".data, some 2)
    ∧ fetch_zoho_record_by_email demoTwoRecords ≠ none := by
  refine ⟨by decide, by decide⟩

/-- C6 amended: a transport failure, an HTTP error status in 400..599
(raise_for_status raises a RequestException, caught and turned into
None) or an empty match set makes fetch_zoho_record_by_email return
not-found (none) without raising; a nonempty match set under a
non-error status, including a multi-record one, returns the first
record's id and Followup_Count rather than not-found. -/
theorem claim_C6_amended (r : SearchResp) :
    fetch_zoho_record_by_email FetchInput.transportErr = none
    ∧ (400 ≤ r.status ∧ r.status ≤ 599 → fetch_zoho_record_by_email (.resp r) = none)
    ∧ (r.data = [] → fetch_zoho_record_by_email (.resp r) = none)
    ∧ (¬(400 ≤ r.status ∧ r.status ≤ 599) → ∀ rec rest, r.data = rec :: rest →
        fetch_zoho_record_by_email (.resp r) = some (rec.rid, pyGetFollowup rec)) := by
  refine ⟨rfl, fun herr => ?_, fun hd => ?_, fun hok rec rest hd => ?_⟩
  · simp [fetch_zoho_record_by_email, herr]
  · by_cases hs : 400 ≤ r.status ∧ r.status ≤ 599 <;>
      simp [fetch_zoho_record_by_email, hs, hd]
  · simp [fetch_zoho_record_by_email, hok, hd]

/-- C6 witness: the amended statement evaluated on a concrete response
with status 204 and an empty match set, and on a concrete 404 response
that carries a record but still yields not-found. -/
theorem claim_C6_witness :
    fetch_zoho_record_by_email (.resp demoEmptyResp) = none
    ∧ fetch_zoho_record_by_email (.resp demoErrResp) = none :=
  ⟨(claim_C6_amended demoEmptyResp).2.2.1 rfl,
   (claim_C6_amended demoErrResp).2.1 (by decide)⟩

/-- C7: in the follow-up scan, an entry whose mailSent lies 6 days
before its Modified_Time with a follow-up count of 4 does not get its
status patched and gets no follow-up email: line 219 of main.py
subtracts the parsed mailSent datetime from the raw Modified_Time
string, which raises TypeError before any action, so the route handler
aborts with an error for the whole batch. -/
theorem claim_C7_bug :
    process_followup_entry (some ("4711".data, some 4)) demoFollowupEntry
      = ([], some PyExc.typeErr) := by
  decide

/-- C8 counterexample: when the assistant call raises, ai_assistant
does return the textual surrogate Error-colon-space timeout, but the
pipeline does not send it: status extraction raises IndexError on the
missing STATUS marker before the send on line 87 of main.py is reached,
so the per-email handler swallows the message and no action happens. -/
theorem claim_C8_counterexample :
    ai_assistant (.raisesWith ("timeout".data)) = "Error: timeout".data
    ∧ process_monitored_email_item (.raisesWith ("timeout".data))
        (some ("4711".data, some 0)) demoMail = ([], some PyExc.indexErr) := by
  refine ⟨by decide, by decide⟩

/-- C8 amended: for every failing assistant call, ai_assistant returns
the Error-prefixed surrogate instead of raising; whenever that
surrogate does not itself contain the STATUS marker, the calling
pipeline then raises IndexError during status extraction and performs
no externally visible action: the surrogate is never sent as an email
reply. -/
theorem claim_C8_amended (m : List Char) (lookup : Option (List Char × Option Int))
    (mail : InboundEmail)
    (hno : hasOccB sepStatus ("Error: ".data ++ m) = false) :
    ai_assistant (.raisesWith m) = "Error: ".data ++ m
    ∧ process_monitored_email_item (.raisesWith m) lookup mail
        = ([], some PyExc.indexErr) := by
  refine ⟨rfl, ?_⟩
  have h1 : afterFirstOcc sepStatus ("Error: ".data ++ m) = none := by
    cases hafo : afterFirstOcc sepStatus ("Error: ".data ++ m) with
    | none => rfl
    | some v =>
      exfalso
      have hs := afterFirstOcc_isSome sepStatus ("Error: ".data ++ m)
      rw [hafo, hno] at hs
      simp at hs
  have h2 : resolved_status (ai_assistant (.raisesWith m)) = none := by
    show resolved_status ("Error: ".data ++ m) = none
    unfold resolved_status status_line_token
    rw [h1]
    rfl
  simp [process_monitored_email_item, h2]

/-- C8 witness: the amended statement evaluated on a concrete exception
text. -/
theorem claim_C8_witness :
    ai_assistant (.raisesWith ("boom".data)) = "Error: ".data ++ "boom".data
    ∧ process_monitored_email_item (.raisesWith ("boom".data)) none demoMail
        = ([], some PyExc.indexErr) :=
  claim_C8_amended ("boom".data) none demoMail (by decide)

/-- C9: every mutating CRM call builds a partial patch whose payload
record names exactly the record id and the one field being updated
(make_com_Status for update_entry_status and update_status, mailSent
for update_mailsent_status, Followup_Count for update_followup), and
no other field. -/
theorem claim_C9_partial_patch (entry_id status mail_sent : List Char) (fc : Int) :
    ((update_entry_status_req entry_id status).payloadFields.map Prod.fst
        = [("id").data, ("make_com_Status").data]
      ∧ ∀ f, f ∈ (update_entry_status_req entry_id status).payloadFields.map Prod.fst ↔
          f = ("id").data ∨ f = ("make_com_Status").data)
    ∧ ((update_status_req entry_id status).payloadFields.map Prod.fst
        = [("id").data, ("make_com_Status").data]
      ∧ ∀ f, f ∈ (update_status_req entry_id status).payloadFields.map Prod.fst ↔
          f = ("id").data ∨ f = ("make_com_Status").data)
    ∧ ((update_mailsent_status_req entry_id mail_sent).payloadFields.map Prod.fst
        = [("id").data, ("mailSent").data]
      ∧ ∀ f, f ∈ (update_mailsent_status_req entry_id mail_sent).payloadFields.map Prod.fst ↔
          f = ("id").data ∨ f = ("mailSent").data)
    ∧ ((update_followup_req entry_id fc).payloadFields.map Prod.fst
        = [("id").data, ("Followup_Count").data]
      ∧ ∀ f, f ∈ (update_followup_req entry_id fc).payloadFields.map Prod.fst ↔
          f = ("id").data ∨ f = ("Followup_Count").data) := by
  refine ⟨⟨rfl, fun f => ?_⟩, ⟨rfl, fun f => ?_⟩, ⟨rfl, fun f => ?_⟩, ⟨rfl, fun f => ?_⟩⟩ <;>
    simp [update_entry_status_req, update_status_req, update_mailsent_status_req,
      update_followup_req]

/-- C10: the retry wrapper retries only request exceptions: an
operation raising an exception of any other class on its first call
makes the wrapper propagate that exception at once, after exactly one
call and no sleep, for every parameter combination. -/
theorem claim_C10_nonrequest_propagates (op : Nat → PyOutcome Nat)
    (maxR d bf e : Nat) (h : op 0 = PyOutcome.otherErr e) :
    retry_on_failure op maxR d bf = ⟨.raised e, [], 1⟩ := by
  cases maxR with
  | zero => simp [retry_on_failure, retryLoop, finalCall, h]
  | succ m =>
    cases m with
    | zero => simp [retry_on_failure, retryLoop, h]
    | succ m2 => simp [retry_on_failure, retryLoop, h]

/-- C10 witness: the statement evaluated on an operation raising a
non-request exception, with the decorator parameters of the
repository. -/
theorem claim_C10_witness :
    retry_on_failure opOtherError 3 2 2 = ⟨.raised 5, [], 1⟩ :=
  claim_C10_nonrequest_propagates opOtherError 3 2 2 5 rfl
